import Mathlib

/-!
Verification development for an event-management CRUD HTTP API
(FastAPI + MongoDB, `src/main.py`).

The embedding models:
* the injection-guard middleware (`BLOCK_PATTERN`, `scan_for_injection`,
  `sanitize_payload`, `injection_protection_middleware`);
* the identifier codec (`oid`) and document normalizer (`to_json`);
* the generic CRUD operations shared by the four entity collections
  (create / list / get / update / delete), instantiated over an arbitrary
  field type `α`;
* the media store (`upload_media`, `stream_latest_media`,
  `upload_event_poster`).

Character classes (`\w`, `\d`, `\s`) of the Python regex are modelled over
ASCII, which is the alphabet all claims quantify over.
-/

deriving instance DecidableEq for Except

/-- An HTTP error response, as raised by `HTTPException(status_code, detail)`. -/
structure HErr where
  status : Nat
  detail : String
deriving DecidableEq

/-- The error raised by the injection guard: `HTTPException(400, "Invalid input detected")`. -/
def invalidInputErr : HErr := ⟨400, "Invalid input detected"⟩

/-- `HTTPException(400, "Invalid id format")` raised by `oid`. -/
def invalidIdErr : HErr := ⟨400, "Invalid id format"⟩

/-- `HTTPException(404, "Not found")` raised by `get_or_404`. -/
def notFoundErr : HErr := ⟨404, "Not found"⟩

/-- `HTTPException(404, "No media found")` raised by `stream_latest_media`. -/
def noMediaErr : HErr := ⟨404, "No media found"⟩

/-! ## The blacklist regex

`BLOCK_PATTERN = re.compile(r"(\$|\{|\}|\[|\]|;|--|/\*|\*/|\b(OR|AND)\b\s+\d=\d)", re.IGNORECASE)`

We model `re.search` over the string's character list: the pattern matches
somewhere iff at some position one of the alternatives matches.  The word
boundary `\b` before `OR`/`AND` holds iff the preceding character (if any) is
not a word character; the `\b` after the keyword is subsumed by the
mandatory whitespace `\s+` that follows. -/

/-- `\w` (ASCII): letters, digits, underscore. -/
def isWordChar (c : Char) : Bool := c.isAlphanum || c == '_'

/-- `\s` (ASCII whitespace as matched by the Python regex engine). -/
def isSpaceChar (c : Char) : Bool :=
  c == ' ' || c == '\t' || c == '\n' || c == '\r'
    || c == Char.ofNat 11 || c == Char.ofNat 12

/-- `\d=\d` at the head of the remaining input. -/
def digitEqDigit : List Char → Bool
  | d1 :: e :: d2 :: _ => d1.isDigit && e == '=' && d2.isDigit
  | _ => false

/-- After at least one whitespace character has been consumed: skip further
whitespace, then require `\d=\d`.  (Greedy `\s+` is exact here because the
digit class is disjoint from whitespace.) -/
def afterSpaces : List Char → Bool
  | [] => false
  | c :: rest => if isSpaceChar c then afterSpaces rest else digitEqDigit (c :: rest)

/-- `\s+\d=\d` at the head of the remaining input. -/
def spacesThenDigits : List Char → Bool
  | [] => false
  | c :: rest => isSpaceChar c && afterSpaces rest

/-- Does one of the alternatives of `BLOCK_PATTERN` match at the current
position?  `prevWord` records whether the preceding character is a word
character (for the `\b` before `OR`/`AND`). -/
def matchesAt (prevWord : Bool) : List Char → Bool
  | [] => false
  | c :: rest =>
    c == '$' || c == '{' || c == '}' || c == '[' || c == ']' || c == ';'
    || (c == '-' && rest.head? == some '-')
    || (c == '/' && rest.head? == some '*')
    || (c == '*' && rest.head? == some '/')
    || (!prevWord && c.toLower == 'o' &&
         (match rest with
          | r :: rest2 => r.toLower == 'r' && spacesThenDigits rest2
          | [] => false))
    || (!prevWord && c.toLower == 'a' &&
         (match rest with
          | n :: d :: rest2 => n.toLower == 'n' && d.toLower == 'd' && spacesThenDigits rest2
          | _ => false))

/-- `re.search`: try every position in turn. -/
def searchFrom (prevWord : Bool) : List Char → Bool
  | [] => false
  | c :: rest => matchesAt prevWord (c :: rest) || searchFrom (isWordChar c) rest

/-- `BLOCK_PATTERN.search(s)` finds a match somewhere in `s`. -/
def hasBlockPattern (s : String) : Bool := searchFrom false s.toList

/-- `scan_for_injection`: raises 400 iff the string is nonempty (Python
truthiness of `value`) and the blacklist pattern matches. -/
def scan_for_injection (value : String) : Except HErr Unit :=
  if !value.isEmpty && hasBlockPattern value then .error invalidInputErr else .ok ()

/-! ## JSON values and `sanitize_payload` -/

/-- The result of `json.loads`: a JSON value. -/
inductive Json where
  | str (s : String)
  | num (n : Int)
  | bool (b : Bool)
  | null
  | arr (items : List Json)
  | obj (fields : List (String × Json))

/-- A mapping key rejected by `sanitize_payload`: contains `$` or `.`. -/
def badKey (k : String) : Bool := k.toList.contains '$' || k.toList.contains '.'

mutual
/-- `sanitize_payload`: walks the parsed JSON; raises 400 on a mapping key
containing `$` or `.`, and on any string value matching `BLOCK_PATTERN`. -/
def sanitize_payload : Json → Except HErr Unit
  | .obj fields => sanitizeObj fields
  | .arr items => sanitizeArr items
  | .str s => scan_for_injection s
  | .num _ => .ok ()
  | .bool _ => .ok ()
  | .null => .ok ()

/-- The `for k, v in obj.items()` loop of `sanitize_payload`. -/
def sanitizeObj : List (String × Json) → Except HErr Unit
  | [] => .ok ()
  | (k, v) :: rest =>
    if badKey k then .error invalidInputErr
    else
      match sanitize_payload v with
      | .error e => .error e
      | .ok _ => sanitizeObj rest

/-- The `for item in obj` loop of `sanitize_payload`. -/
def sanitizeArr : List Json → Except HErr Unit
  | [] => .ok ()
  | x :: rest =>
    match sanitize_payload x with
    | .error e => .error e
    | .ok _ => sanitizeArr rest
end

/-! ## The middleware -/

/-- Substring containment over character lists (Python's `in` on `str`). -/
def containsSub (p : List Char) : List Char → Bool
  | [] => p.isEmpty
  | c :: rest => p.isPrefixOf (c :: rest) || containsSub p rest

/-- An inbound HTTP request, as seen by the middleware. -/
structure Request where
  method : String
  contentType : String
  body : String
deriving DecidableEq

/-- `injection_protection_middleware`.  `parse` stands for
`json.loads(body.decode("utf-8"))`, returning `none` when decoding or
parsing raises (that exception is swallowed by the bare `except`).
On success the request proceeds downstream with its original body
(the replayed `_receive`); an `HTTPException` from the sanitizer is
re-raised. -/
def injection_protection_middleware (parse : String → Option Json)
    (req : Request) : Except HErr Request :=
  if (req.method == "POST" || req.method == "PUT" || req.method == "PATCH")
      && containsSub "application/json".toList req.contentType.toList then
    if !req.body.isEmpty then
      match parse req.body with
      | some payload =>
        match sanitize_payload payload with
        | .error e => .error e
        | .ok _ => .ok req
      | none => .ok req
    else .ok req
  else .ok req

/-! ## Spec-side predicates over JSON values

`anyKeyBad` holds iff some mapping key, at any depth, contains `$` or `.`;
`anyStrBad` holds iff some string value, at any depth, matches
`BLOCK_PATTERN`.  We prove `sanitize_payload` raises 400 exactly when one of
the two holds. -/

mutual
/-- Some mapping key (at any depth) contains `$` or `.`. -/
def anyKeyBad : Json → Bool
  | .obj fields => anyKeyBadObj fields
  | .arr items => anyKeyBadArr items
  | .str _ => false
  | .num _ => false
  | .bool _ => false
  | .null => false

/-- `anyKeyBad` over an object's field list. -/
def anyKeyBadObj : List (String × Json) → Bool
  | [] => false
  | (k, v) :: rest => badKey k || anyKeyBad v || anyKeyBadObj rest

/-- `anyKeyBad` over an array's item list. -/
def anyKeyBadArr : List Json → Bool
  | [] => false
  | x :: rest => anyKeyBad x || anyKeyBadArr rest
end

mutual
/-- Some string value (at any depth) matches the blacklist pattern. -/
def anyStrBad : Json → Bool
  | .obj fields => anyStrBadObj fields
  | .arr items => anyStrBadArr items
  | .str s => hasBlockPattern s
  | .num _ => false
  | .bool _ => false
  | .null => false

/-- `anyStrBad` over an object's field list (the values only: keys are never
matched against the pattern by the code). -/
def anyStrBadObj : List (String × Json) → Bool
  | [] => false
  | (_, v) :: rest => anyStrBad v || anyStrBadObj rest

/-- `anyStrBad` over an array's item list. -/
def anyStrBadArr : List Json → Bool
  | [] => false
  | x :: rest => anyStrBad x || anyStrBadArr rest
end

theorem hasBlockPattern_empty : hasBlockPattern "" = false := rfl

theorem scan_for_injection_eq (s : String) :
    scan_for_injection s =
      (if hasBlockPattern s then .error invalidInputErr else .ok ()) := by
  unfold scan_for_injection
  by_cases h : s.isEmpty
  · have hs : s = "" := (String.isEmpty_iff s).mp h
    subst hs
    simp [hasBlockPattern_empty]
  · simp [h]

mutual
theorem sanitize_payload_eq (j : Json) :
    sanitize_payload j =
      (if anyKeyBad j || anyStrBad j then .error invalidInputErr else .ok ()) := by
  cases j with
  | obj fields =>
    rw [sanitize_payload, anyKeyBad, anyStrBad, sanitizeObj_eq fields]
  | arr items =>
    rw [sanitize_payload, anyKeyBad, anyStrBad, sanitizeArr_eq items]
  | str s => rw [sanitize_payload, anyKeyBad, anyStrBad, scan_for_injection_eq]; simp
  | num n => rfl
  | bool b => rfl
  | null => rfl

theorem sanitizeObj_eq (fs : List (String × Json)) :
    sanitizeObj fs =
      (if anyKeyBadObj fs || anyStrBadObj fs then .error invalidInputErr else .ok ()) := by
  cases fs with
  | nil => rfl
  | cons p rest =>
    obtain ⟨k, v⟩ := p
    rw [sanitizeObj, anyKeyBadObj, anyStrBadObj, sanitize_payload_eq v, sanitizeObj_eq rest]
    cases hk : badKey k <;>
      cases h1 : anyKeyBad v <;> cases h2 : anyStrBad v <;>
      cases h3 : anyKeyBadObj rest <;> cases h4 : anyStrBadObj rest <;> simp

theorem sanitizeArr_eq (xs : List Json) :
    sanitizeArr xs =
      (if anyKeyBadArr xs || anyStrBadArr xs then .error invalidInputErr else .ok ()) := by
  cases xs with
  | nil => rfl
  | cons x rest =>
    rw [sanitizeArr, anyKeyBadArr, anyStrBadArr, sanitize_payload_eq x, sanitizeArr_eq rest]
    cases h1 : anyKeyBad x <;> cases h2 : anyStrBad x <;>
      cases h3 : anyKeyBadArr rest <;> cases h4 : anyStrBadArr rest <;> simp
end

/-- The guard condition of the middleware, split into its two Boolean tests. -/
theorem middleware_guard_true (req : Request)
    (hm : req.method = "POST" ∨ req.method = "PUT" ∨ req.method = "PATCH")
    (hct : containsSub "application/json".toList req.contentType.toList = true) :
    ((req.method == "POST" || req.method == "PUT" || req.method == "PATCH")
      && containsSub "application/json".toList req.contentType.toList) = true := by
  have hm' : (req.method == "POST" || req.method == "PUT" || req.method == "PATCH") = true := by
    rcases hm with h | h | h <;> rw [h] <;> rfl
  rw [hm', Bool.true_and]
  exact hct

/-- C1 counterexample: the JSON object whose single key is `";"` — a key that
matches the blacklist pattern (it contains `;`) but contains neither `$` nor
`.` — is NOT rejected by the middleware: the request proceeds to the handler.
Object keys are never matched against `BLOCK_PATTERN` by `sanitize_payload`;
they are only checked for the characters `$` and `.`. -/
theorem injection_guard_key_not_blacklist_matched :
    hasBlockPattern ";" = true ∧ badKey ";" = false ∧
    injection_protection_middleware (fun _ => some (Json.obj [(";", Json.null)]))
      ⟨"POST", "application/json", "\x7b\";\": null\x7d"⟩
      = .ok ⟨"POST", "application/json", "\x7b\";\": null\x7d"⟩ := by
  refine ⟨rfl, rfl, ?_⟩
  decide

/-- C1 (amended): for every POST/PUT/PATCH request with JSON content type and
nonempty body that parses as JSON, if any string VALUE in the parsed
structure (nested ones included) matches the blacklist pattern, the
middleware rejects the request with HTTP 400 `Invalid input detected` before
the route handler runs.  (Object keys are not matched against the pattern;
they are checked only for `$` and `.` — see C2.) -/
theorem injection_guard_rejects_bad_string_values
    (parse : String → Option Json) (req : Request) (j : Json)
    (hm : req.method = "POST" ∨ req.method = "PUT" ∨ req.method = "PATCH")
    (hct : containsSub "application/json".toList req.contentType.toList = true)
    (hb : req.body.isEmpty = false)
    (hp : parse req.body = some j)
    (hbad : anyStrBad j = true) :
    injection_protection_middleware parse req = .error invalidInputErr := by
  unfold injection_protection_middleware
  rw [middleware_guard_true req hm hct]
  simp only [if_true, hb, Bool.not_false, hp, sanitize_payload_eq, hbad, Bool.or_true,
    if_true, ite_true]

/-- Closed witness for the amended C1 theorem at a concrete request. -/
theorem injection_guard_rejects_bad_string_values_witness :
    injection_protection_middleware (fun _ => some (Json.obj [("name", Json.str "a$b")]))
      ⟨"POST", "application/json", "\x7b\"name\": \"a$b\"\x7d"⟩ = .error invalidInputErr :=
  injection_guard_rejects_bad_string_values _ _ (Json.obj [("name", Json.str "a$b")])
    (Or.inl rfl) (by decide) (by decide) rfl (by decide)

/-- C2: for every POST/PUT/PATCH request with JSON content type and nonempty
body that parses as JSON, if any mapping key anywhere in the parsed structure
contains `$` or `.`, the middleware rejects the request with HTTP 400 before
it reaches the route handler. -/
theorem injection_guard_rejects_bad_keys
    (parse : String → Option Json) (req : Request) (j : Json)
    (hm : req.method = "POST" ∨ req.method = "PUT" ∨ req.method = "PATCH")
    (hct : containsSub "application/json".toList req.contentType.toList = true)
    (hb : req.body.isEmpty = false)
    (hp : parse req.body = some j)
    (hbad : anyKeyBad j = true) :
    injection_protection_middleware parse req = .error invalidInputErr := by
  unfold injection_protection_middleware
  rw [middleware_guard_true req hm hct]
  simp only [if_true, hb, Bool.not_false, hp, sanitize_payload_eq, hbad, Bool.true_or,
    if_true, ite_true]

/-- Closed witness for the C2 theorem: a nested key `"a.b"` is rejected. -/
theorem injection_guard_rejects_bad_keys_witness :
    injection_protection_middleware
      (fun _ => some (Json.arr [Json.obj [("a.b", Json.num 1)]]))
      ⟨"PUT", "application/json", "[\x7b\"a.b\": 1\x7d]"⟩ = .error invalidInputErr :=
  injection_guard_rejects_bad_keys _ _ (Json.arr [Json.obj [("a.b", Json.num 1)]])
    (Or.inr (Or.inl rfl)) (by decide) (by decide) rfl (by decide)

/-- C3: the middleware rejects only on a pattern match.  For every
POST/PUT/PATCH request with JSON content type: if the body fails to parse as
JSON the failure is silently swallowed and the request proceeds to the
handler unchanged, and if the body parses to a benign payload (no mapping key
containing `$` or `.`, no string value matching the blacklist) the request
also proceeds to the handler with its body unchanged. -/
theorem injection_guard_passes_parse_failure_and_benign
    (parse : String → Option Json) (req : Request)
    (hm : req.method = "POST" ∨ req.method = "PUT" ∨ req.method = "PATCH")
    (hct : containsSub "application/json".toList req.contentType.toList = true) :
    (parse req.body = none → injection_protection_middleware parse req = .ok req) ∧
    (∀ j, parse req.body = some j → anyKeyBad j = false → anyStrBad j = false →
      injection_protection_middleware parse req = .ok req) := by
  unfold injection_protection_middleware
  rw [middleware_guard_true req hm hct]
  constructor
  · intro hp
    cases hb : req.body.isEmpty <;> simp [hb, hp]
  · intro j hp h1 h2
    cases hb : req.body.isEmpty <;> simp [hb, hp, sanitize_payload_eq, h1, h2]

/-- Closed witness for the C3 theorem: an unparsable body passes through, and
the benign payload from the spec's example passes through unchanged. -/
theorem injection_guard_passes_parse_failure_and_benign_witness :
    injection_protection_middleware (fun _ => none)
      ⟨"POST", "application/json", "not json"⟩
      = .ok ⟨"POST", "application/json", "not json"⟩ ∧
    injection_protection_middleware (fun _ => some (Json.obj [("name", Json.str "Summer Fest")]))
      ⟨"POST", "application/json", "\x7b\"name\": \"Summer Fest\"\x7d"⟩
      = .ok ⟨"POST", "application/json", "\x7b\"name\": \"Summer Fest\"\x7d"⟩ :=
  ⟨(injection_guard_passes_parse_failure_and_benign (fun _ => none)
      ⟨"POST", "application/json", "not json"⟩ (Or.inl rfl) (by decide)).1 rfl,
   (injection_guard_passes_parse_failure_and_benign
      (fun _ => some (Json.obj [("name", Json.str "Summer Fest")]))
      ⟨"POST", "application/json", "\x7b\"name\": \"Summer Fest\"\x7d"⟩ (Or.inl rfl)
      (by decide)).2 (Json.obj [("name", Json.str "Summer Fest")]) rfl (by decide) (by decide)⟩

/-! ## Identifier codec and document normalizer -/

/-- A `bson.ObjectId`, carried by its hex-string form (canonically 24
lowercase hex characters). -/
structure OId where
  hex : String
deriving DecidableEq

/-- A hexadecimal digit, either case, as accepted by `ObjectId(...)`. -/
def isHexChar (c : Char) : Bool :=
  c.isDigit || ('a' ≤ c && c ≤ 'f') || ('A' ≤ c && c ≤ 'F')

/-- The strings the `ObjectId` constructor accepts: exactly 24 hex characters. -/
def validObjectIdString (s : String) : Bool :=
  s.length == 24 && s.toList.all isHexChar

/-- Hex lowercasing: `str(ObjectId(s))` is `s.lower()` for a 24-hex `s`. -/
def lowerHex (s : String) : String := ⟨s.toList.map Char.toLower⟩

/-- A canonical, server-generated ObjectId: valid hex already in lowercase
form (as produced by the database driver). -/
def canonicalOId (i : OId) : Bool := validObjectIdString i.hex && lowerHex i.hex == i.hex

/-- `oid(id_str)`: `ObjectId(id_str)`, or `HTTPException(400, "Invalid id
format")` when the constructor raises on a malformed identifier. -/
def oid (id_str : String) : Except HErr OId :=
  if validObjectIdString id_str then .ok ⟨lowerHex id_str⟩ else .error invalidIdErr

/-- A stored document: the server-assigned `_id` plus the schema fields
(`α` is `Event`, `Attendee`, `Venue` or `Booking`). -/
structure MDoc (α : Type) where
  _id : OId
  fields : α
deriving DecidableEq

/-- The externally visible document produced by `to_json`: the `_id` replaced
by its string encoding, every other field passed through unchanged. -/
structure ExternalDoc (α : Type) where
  _id : String
  fields : α
deriving DecidableEq

/-- `to_json(doc)`: `doc["_id"] = str(doc["_id"])`. -/
def to_json {α : Type} (doc : MDoc α) : ExternalDoc α := ⟨doc._id.hex, doc.fields⟩

/-! ## MongoDB collection operations

A collection is a list of documents in storage-native (insertion) order.
MongoDB enforces `_id` uniqueness, which appears below as a `Nodup`
hypothesis where a proof needs it. -/

/-- `collection.find_one({"_id": i})`. -/
def find_one_by_id {α : Type} (c : List (MDoc α)) (i : OId) : Option (MDoc α) :=
  c.find? (fun d => d._id == i)

/-- `collection.insert_one(entity.model_dump())` with server-generated id
`fresh`. -/
def insert_one {α : Type} (c : List (MDoc α)) (fresh : OId) (e : α) : List (MDoc α) :=
  c ++ [⟨fresh, e⟩]

/-- `collection.update_one({"_id": i}, {"$set": entity.model_dump()})`: the
`$set` carries every schema field, so the first matching document has all its
user-supplied fields rewritten.  Returns the new collection and
`matched_count`. -/
def update_one {α : Type} (c : List (MDoc α)) (i : OId) (e : α) : List (MDoc α) × Nat :=
  match c with
  | [] => ([], 0)
  | d :: rest =>
    if d._id == i then (⟨d._id, e⟩ :: rest, 1)
    else
      let p := update_one rest i e
      (d :: p.1, p.2)

/-- `collection.delete_one({"_id": i})`: removes the first matching document.
Returns the new collection and `deleted_count`. -/
def delete_one {α : Type} (c : List (MDoc α)) (i : OId) : List (MDoc α) × Nat :=
  match c with
  | [] => ([], 0)
  | d :: rest =>
    if d._id == i then (rest, 1)
    else
      let p := delete_one rest i
      (d :: p.1, p.2)

/-! ## Entity repository handlers

The four collections (events, attendees, venues, bookings) share this code
shape exactly; the handlers are modelled generically over the field type `α`
and the collection-specific not-found detail string, and instantiated below
at `Event`. -/

/-- `get_or_404(collection, id_str)`. -/
def get_or_404 {α : Type} (c : List (MDoc α)) (id_str : String) : Except HErr (MDoc α) :=
  match oid id_str with
  | .error e => .error e
  | .ok i =>
    match find_one_by_id c i with
    | some d => .ok d
    | none => .error notFoundErr

/-- `create_event` and its three analogues: insert with a fresh server id,
return the new collection and `str(result.inserted_id)`. -/
def createDoc {α : Type} (c : List (MDoc α)) (fresh : OId) (e : α) :
    List (MDoc α) × String :=
  (insert_one c fresh e, fresh.hex)

/-- `list_events` and its analogues: `find().to_list(100)`, then `to_json`
on each document. -/
def listDocs {α : Type} (c : List (MDoc α)) : List (ExternalDoc α) :=
  (c.take 100).map to_json

/-- `get_event` and its analogues: `to_json(get_or_404(...))`. -/
def getDoc {α : Type} (c : List (MDoc α)) (id_str : String) : Except HErr (ExternalDoc α) :=
  (get_or_404 c id_str).map to_json

/-- `update_event` and its analogues: 404 with the collection's detail string
when `matched_count == 0`, else the updated collection. -/
def updateDoc {α : Type} (c : List (MDoc α)) (id_str : String) (e : α)
    (detail : String) : Except HErr (List (MDoc α)) :=
  match oid id_str with
  | .error er => .error er
  | .ok i =>
    let p := update_one c i e
    if p.2 == 0 then .error ⟨404, detail⟩ else .ok p.1

/-- `delete_event` and its analogues: 404 when `deleted_count == 0`. -/
def deleteDoc {α : Type} (c : List (MDoc α)) (id_str : String)
    (detail : String) : Except HErr (List (MDoc α)) :=
  match oid id_str with
  | .error er => .error er
  | .ok i =>
    let p := delete_one c i
    if p.2 == 0 then .error ⟨404, detail⟩ else .ok p.1

/-- The `Event` schema. -/
structure Event where
  name : String
  description : String
  date : String
  venue_id : String
  max_attendees : Int
deriving DecidableEq

/-- `POST /events`. -/
def create_event (c : List (MDoc Event)) (fresh : OId) (e : Event) :
    List (MDoc Event) × String := createDoc c fresh e

/-- `GET /events`. -/
def list_events (c : List (MDoc Event)) : List (ExternalDoc Event) := listDocs c

/-- `GET /events/{event_id}`. -/
def get_event (c : List (MDoc Event)) (event_id : String) :
    Except HErr (ExternalDoc Event) := getDoc c event_id

/-- `PUT /events/{event_id}`. -/
def update_event (c : List (MDoc Event)) (event_id : String) (e : Event) :
    Except HErr (List (MDoc Event)) := updateDoc c event_id e "Event not found"

/-- `DELETE /events/{event_id}`. -/
def delete_event (c : List (MDoc Event)) (event_id : String) :
    Except HErr (List (MDoc Event)) := deleteDoc c event_id "Event not found"

/-! ## Media store -/

/-- A document of the `media` collection: the owning entity's id under the
dynamic link field (`"event_id"` or `"venue_id"`), the media category, the
original filename, declared content type, raw payload bytes, and the upload
timestamp (`datetime.utcnow()`). -/
structure MediaDoc where
  _id : OId
  link_field : String
  link_id : String
  media_type : String
  filename : String
  content_type : String
  content : List Nat
  uploaded_at : Nat
deriving DecidableEq

/-- `upload_media(collection, link_field, link_id, media_type, file)`: reads
the whole payload and inserts one document; returns the new collection and
`str(result.inserted_id)`. -/
def upload_media (c : List MediaDoc) (link_field link_id media_type : String)
    (filename content_type : String) (content : List Nat) (now : Nat)
    (fresh : OId) : List MediaDoc × String :=
  (c ++ [⟨fresh, link_field, link_id, media_type, filename, content_type, content, now⟩],
   fresh.hex)

/-- The filter `{link_field: link_id, "media_type": media_type}`. -/
def mediaMatches (link_field link_id media_type : String) (d : MediaDoc) : Bool :=
  d.link_field == link_field && d.link_id == link_id && d.media_type == media_type

/-- The accumulator loop behind `sort=[("uploaded_at", -1)]` with limit 1:
keep the document with the greatest `uploaded_at` seen so far (the earlier
document on a timestamp tie, a determinization of MongoDB's unspecified tie
order). -/
def pickLatestGo (acc : Option MediaDoc) : List MediaDoc → Option MediaDoc
  | [] => acc
  | d :: rest =>
    pickLatestGo
      (match acc with
       | none => some d
       | some b => if b.uploaded_at < d.uploaded_at then some d else some b)
      rest

/-- `find_one(filter, sort=[("uploaded_at", -1)])`: the matching document
with the greatest upload timestamp, if any. -/
def find_one_sorted (c : List MediaDoc) (link_field link_id media_type : String) :
    Option MediaDoc :=
  pickLatestGo none (c.filter (mediaMatches link_field link_id media_type))

/-- The `StreamingResponse`: payload bytes, the stored content type, and the
inline-disposition filename hint. -/
structure StreamResp where
  content : List Nat
  media_type : String
  filename : String
deriving DecidableEq

/-- `stream_latest_media`: 404 when no document matches, else the latest
matching document streamed back. -/
def stream_latest_media (c : List MediaDoc) (link_field link_id media_type : String) :
    Except HErr StreamResp :=
  match find_one_sorted c link_field link_id media_type with
  | none => .error noMediaErr
  | some d => .ok ⟨d.content, d.content_type, d.filename⟩

/-- `POST /upload_event_poster/{event_id}`: 400 unless the declared content
type starts with `image/`; otherwise store via `upload_media` — the owner id
is passed through verbatim, never through `oid`. -/
def upload_event_poster (c : List MediaDoc) (event_id : String)
    (content_type : Option String) (filename : String) (content : List Nat)
    (now : Nat) (fresh : OId) : Except HErr (List MediaDoc × String) :=
  match content_type with
  | none => .error ⟨400, "Poster must be an image"⟩
  | some ct =>
    if !("image/".toList.isPrefixOf ct.toList) then .error ⟨400, "Poster must be an image"⟩
    else .ok (upload_media c "event_id" event_id "event_poster" filename ct content now fresh)

/-- `GET /event_poster/{event_id}`. -/
def get_event_poster (c : List MediaDoc) (event_id : String) : Except HErr StreamResp :=
  stream_latest_media c "event_id" event_id "event_poster"

/-! ## CRUD lemmas and claims -/

/-- Identifiers for the concrete witness scenarios below. -/
def wOId : OId := ⟨"0123456789abcdef01234567"⟩

/-- The 24-hex string form of `wOId`. -/
def wId : String := "0123456789abcdef01234567"

/-- A concrete event used in witness scenarios. -/
def evA : Event := ⟨"A", "a", "1", "v", 1⟩

/-- A second concrete event used in witness scenarios. -/
def evB : Event := ⟨"B", "b", "2", "w", 2⟩

/-- A one-event collection used in witness scenarios. -/
def wCol : List (MDoc Event) := [⟨wOId, evA⟩]

theorem find_one_by_id_append_fresh {α : Type} (c : List (MDoc α)) (d0 : MDoc α)
    (hfresh : ∀ d ∈ c, d._id ≠ d0._id) :
    find_one_by_id (c ++ [d0]) d0._id = some d0 := by
  induction c with
  | nil => simp [find_one_by_id, List.find?]
  | cons d rest ih =>
    have hne : (d._id == d0._id) = false := by
      simp [hfresh d (List.mem_cons_self d rest)]
    have step : find_one_by_id ((d :: rest) ++ [d0]) d0._id
        = find_one_by_id (rest ++ [d0]) d0._id := by
      simp [find_one_by_id, List.find?_cons, hne]
    rw [step]
    exact ih fun d' hd' => hfresh d' (List.mem_cons_of_mem d hd')

/-- C4: for every entity collection, create-then-get round-trips: getting the
id returned by create yields the created entity's fields unchanged, together
with the id in its string encoding.  Hypotheses: the server-generated id is a
canonical ObjectId and is fresh for the collection (MongoDB guarantees
both). -/
theorem create_then_get_roundtrip {α : Type} (c : List (MDoc α)) (fresh : OId) (e : α)
    (hcanon : canonicalOId fresh = true)
    (hfresh : ∀ d ∈ c, d._id ≠ fresh) :
    getDoc (createDoc c fresh e).1 (createDoc c fresh e).2 = .ok ⟨fresh.hex, e⟩ := by
  unfold canonicalOId at hcanon
  rw [Bool.and_eq_true] at hcanon
  obtain ⟨hvalid, hlow⟩ := hcanon
  have hlower : lowerHex fresh.hex = fresh.hex := by simpa [beq_iff_eq] using hlow
  have hoid : oid fresh.hex = .ok fresh := by
    simp [oid, hvalid, hlower]
  have hfind : find_one_by_id (c ++ [⟨fresh, e⟩]) fresh = some ⟨fresh, e⟩ :=
    find_one_by_id_append_fresh c ⟨fresh, e⟩ hfresh
  simp [getDoc, get_or_404, createDoc, insert_one, hoid, hfind, to_json, Except.map]

/-- Closed witness for the C4 theorem: a concrete event round-trips. -/
theorem create_then_get_roundtrip_witness :
    getDoc (createDoc ([] : List (MDoc Event)) wOId evA).1
        (createDoc ([] : List (MDoc Event)) wOId evA).2
      = .ok ⟨wId, evA⟩ :=
  create_then_get_roundtrip [] wOId evA (by decide) (by simp)

/-- C6: for every entity get-by-id: a malformed id (not 24 hex characters)
yields HTTP 400 `Invalid id format`; a well-formed id whose decoded ObjectId
matches no stored document yields HTTP 404 `Not found`. -/
theorem get_malformed_400_missing_404 {α : Type} (c : List (MDoc α)) (id_str : String) :
    (validObjectIdString id_str = false → getDoc c id_str = .error invalidIdErr) ∧
    (validObjectIdString id_str = true →
      (∀ d ∈ c, d._id ≠ ⟨lowerHex id_str⟩) → getDoc c id_str = .error notFoundErr) := by
  constructor
  · intro h
    simp [getDoc, get_or_404, oid, h, Except.map]
  · intro hv hnone
    have hfind : find_one_by_id c ⟨lowerHex id_str⟩ = none := by
      unfold find_one_by_id
      refine List.find?_eq_none.mpr fun d hd => ?_
      simp [hnone d hd]
    simp [getDoc, get_or_404, oid, hv, hfind, Except.map]

/-- Closed witness for the C6 theorem: `GET /events/not-a-valid-id` is a 400,
and a well-formed 24-hex id absent from the collection is a 404. -/
theorem get_malformed_400_missing_404_witness :
    getDoc ([] : List (MDoc Event)) "not-a-valid-id" = .error invalidIdErr ∧
    getDoc ([] : List (MDoc Event)) wId = .error notFoundErr :=
  ⟨(get_malformed_400_missing_404 ([] : List (MDoc Event)) "not-a-valid-id").1 (by decide),
   (get_malformed_400_missing_404 ([] : List (MDoc Event)) wId).2 (by decide) (by simp)⟩

theorem update_one_not_matched {α : Type} (c : List (MDoc α)) (i : OId) (e : α)
    (h : ∀ d ∈ c, d._id ≠ i) : update_one c i e = (c, 0) := by
  induction c with
  | nil => rfl
  | cons d rest ih =>
    have hne : (d._id == i) = false := by simp [h d (List.mem_cons_self d rest)]
    simp [update_one, hne, ih fun d' hd' => h d' (List.mem_cons_of_mem d hd')]

theorem update_one_matched {α : Type} (c : List (MDoc α)) (i : OId) (e : α)
    (hmem : ∃ d ∈ c, d._id = i) :
    (update_one c i e).2 = 1 ∧ MDoc.mk i e ∈ (update_one c i e).1 := by
  induction c with
  | nil => simp at hmem
  | cons d rest ih =>
    by_cases hd : d._id = i
    · simp [update_one, hd]
    · have hbeq : (d._id == i) = false := by simp [hd]
      obtain ⟨d', hd', hid'⟩ := hmem
      rcases List.mem_cons.mp hd' with h | h
      · exact absurd (h ▸ hid') hd
      · obtain ⟨h1, h2⟩ := ih ⟨d', h, hid'⟩
        simp [update_one, hbeq, h1, h2]

theorem update_one_fields {α : Type} (c : List (MDoc α)) (i : OId) (e : α)
    (hnodup : (c.map fun d => d._id).Nodup) :
    ∀ d2 ∈ (update_one c i e).1, d2._id = i → d2.fields = e := by
  induction c with
  | nil => simp [update_one]
  | cons d rest ih =>
    rw [List.map_cons, List.nodup_cons] at hnodup
    obtain ⟨hni, hrest⟩ := hnodup
    by_cases hd : d._id = i
    · intro d2 hd2 hid2
      simp only [update_one, hd, beq_self_eq_true, if_true] at hd2
      rcases List.mem_cons.mp hd2 with h | h
      · rw [h]
      · exact absurd (List.mem_map.mpr ⟨d2, h, by rw [hid2, hd]⟩) hni
    · intro d2 hd2 hid2
      have hbeq : (d._id == i) = false := by simp [hd]
      simp only [update_one, hbeq, Bool.false_eq_true, if_false] at hd2
      rcases List.mem_cons.mp hd2 with h | h
      · exact absurd (h ▸ hid2) hd
      · exact ih hrest d2 h hid2

/-- C5: for every entity collection, update on a well-formed id matching no
stored document yields HTTP 404 with the collection's detail string; update
on an existing document replaces the full set of user-supplied fields with
the new entity's fields (no value of the prior document survives in them). -/
theorem update_full_replace_or_404 {α : Type} (c : List (MDoc α)) (id_str : String)
    (e : α) (i : OId) (detail : String)
    (hid : oid id_str = .ok i)
    (hnodup : (c.map fun d => d._id).Nodup) :
    ((∀ d ∈ c, d._id ≠ i) → updateDoc c id_str e detail = .error ⟨404, detail⟩) ∧
    ((∃ d ∈ c, d._id = i) → ∃ c2, updateDoc c id_str e detail = .ok c2 ∧
        MDoc.mk i e ∈ c2 ∧ ∀ d2 ∈ c2, d2._id = i → d2.fields = e) := by
  constructor
  · intro h
    simp [updateDoc, hid, update_one_not_matched c i e h]
  · intro hmem
    obtain ⟨h1, h2⟩ := update_one_matched c i e hmem
    exact ⟨(update_one c i e).1, by simp [updateDoc, hid, h1], h2,
           update_one_fields c i e hnodup⟩

/-- Closed witness for the C5 theorem: updating an empty collection is a 404;
updating the one stored event fully replaces its fields. -/
theorem update_full_replace_or_404_witness :
    updateDoc ([] : List (MDoc Event)) wId evB "Event not found"
      = .error ⟨404, "Event not found"⟩ ∧
    (∃ c2, updateDoc wCol wId evB "Event not found" = .ok c2 ∧
      MDoc.mk wOId evB ∈ c2 ∧ ∀ d2 ∈ c2, d2._id = wOId → d2.fields = evB) :=
  ⟨(update_full_replace_or_404 [] wId evB wOId "Event not found"
      (by decide) (by simp)).1 (by simp),
   (update_full_replace_or_404 wCol wId evB wOId "Event not found"
      (by decide) (by simp [wCol])).2 ⟨⟨wOId, evA⟩, by simp [wCol], rfl⟩⟩

theorem delete_one_not_matched {α : Type} (c : List (MDoc α)) (i : OId)
    (h : ∀ d ∈ c, d._id ≠ i) : delete_one c i = (c, 0) := by
  induction c with
  | nil => rfl
  | cons d rest ih =>
    have hne : (d._id == i) = false := by simp [h d (List.mem_cons_self d rest)]
    simp [delete_one, hne, ih fun d' hd' => h d' (List.mem_cons_of_mem d hd')]

theorem delete_one_matched {α : Type} (c : List (MDoc α)) (i : OId)
    (hnodup : (c.map fun d => d._id).Nodup)
    (hmem : ∃ d ∈ c, d._id = i) :
    (delete_one c i).2 = 1 ∧ ∀ d2 ∈ (delete_one c i).1, d2._id ≠ i := by
  induction c with
  | nil => simp at hmem
  | cons d rest ih =>
    rw [List.map_cons, List.nodup_cons] at hnodup
    obtain ⟨hni, hrest⟩ := hnodup
    by_cases hd : d._id = i
    · refine ⟨by simp [delete_one, hd], fun d2 hd2 hid2 => ?_⟩
      simp only [delete_one, hd, beq_self_eq_true, if_true] at hd2
      exact absurd (List.mem_map.mpr ⟨d2, hd2, by rw [hid2, hd]⟩) hni
    · have hbeq : (d._id == i) = false := by simp [hd]
      obtain ⟨d', hd', hid'⟩ := hmem
      rcases List.mem_cons.mp hd' with h | h
      · exact absurd (h ▸ hid') hd
      · obtain ⟨h1, h2⟩ := ih hrest ⟨d', h, hid'⟩
        refine ⟨by simp [delete_one, hbeq, h1], fun d2 hd2 => ?_⟩
        simp only [delete_one, hbeq, Bool.false_eq_true, if_false, List.mem_cons] at hd2
        rcases hd2 with h' | h'
        · exact h' ▸ hd
        · exact h2 d2 h'

/-- C8: for every entity collection, delete is idempotent-observable: a first
delete of an existing well-formed id succeeds and removes the document, a
second delete of the same id yields HTTP 404, and any delete of a well-formed
id matching no stored document yields HTTP 404. -/
theorem delete_idempotent_observable {α : Type} (c : List (MDoc α)) (id_str : String)
    (i : OId) (detail : String)
    (hid : oid id_str = .ok i)
    (hnodup : (c.map fun d => d._id).Nodup) :
    ((∀ d ∈ c, d._id ≠ i) → deleteDoc c id_str detail = .error ⟨404, detail⟩) ∧
    ((∃ d ∈ c, d._id = i) → ∃ c2, deleteDoc c id_str detail = .ok c2 ∧
        (∀ d2 ∈ c2, d2._id ≠ i) ∧
        deleteDoc c2 id_str detail = .error ⟨404, detail⟩) := by
  have not_matched : ∀ (c' : List (MDoc α)), (∀ d ∈ c', d._id ≠ i) →
      deleteDoc c' id_str detail = .error ⟨404, detail⟩ := by
    intro c' h
    simp [deleteDoc, hid, delete_one_not_matched c' i h]
  refine ⟨not_matched c, fun hmem => ?_⟩
  obtain ⟨h1, h2⟩ := delete_one_matched c i hnodup hmem
  exact ⟨(delete_one c i).1, by simp [deleteDoc, hid, h1], h2, not_matched _ h2⟩

/-- Closed witness for the C8 theorem: deleting the one stored event succeeds
and a repeat delete is a 404; deleting from an empty collection is a 404. -/
theorem delete_idempotent_observable_witness :
    deleteDoc ([] : List (MDoc Event)) wId "Event not found"
      = .error ⟨404, "Event not found"⟩ ∧
    (∃ c2, deleteDoc wCol wId "Event not found" = .ok c2 ∧
      (∀ d2 ∈ c2, d2._id ≠ wOId) ∧
      deleteDoc c2 wId "Event not found" = .error ⟨404, "Event not found"⟩) :=
  ⟨(delete_idempotent_observable [] wId wOId "Event not found"
      (by decide) (by simp)).1 (by simp),
   (delete_idempotent_observable wCol wId wOId "Event not found"
      (by decide) (by simp [wCol])).2 ⟨⟨wOId, evA⟩, by simp [wCol], rfl⟩⟩

/-- C9: for every entity collection, the list endpoint returns at most 100
documents, whatever the collection contains (`find().to_list(100)`). -/
theorem list_returns_at_most_100 {α : Type} (c : List (MDoc α)) :
    (listDocs c).length ≤ 100 := by
  simp [listDocs, List.length_take]

/-! ## Media store lemmas and claims -/

theorem pickLatestGo_some {l : List MediaDoc} :
    ∀ {acc : Option MediaDoc} {d : MediaDoc}, pickLatestGo acc l = some d →
      (acc = some d ∨ d ∈ l) ∧
      (∀ b, acc = some b → b.uploaded_at ≤ d.uploaded_at) ∧
      (∀ d' ∈ l, d'.uploaded_at ≤ d.uploaded_at) := by
  induction l with
  | nil =>
    intro acc d h
    rw [pickLatestGo] at h
    refine ⟨Or.inl h, fun b hb => ?_, by simp⟩
    rw [hb] at h
    rw [Option.some.inj h]
  | cons x rest ih =>
    intro acc d h
    cases acc with
    | none =>
      replace h : pickLatestGo (some x) rest = some d := h
      obtain ⟨hmem, haccle, hrestle⟩ := ih h
      refine ⟨?_, fun b hb => Option.noConfusion hb, fun d' hd' => ?_⟩
      · rcases hmem with h' | h'
        · exact Or.inr (List.mem_cons.mpr (Or.inl (Option.some.inj h').symm))
        · exact Or.inr (List.mem_cons_of_mem x h')
      · rcases List.mem_cons.mp hd' with h' | h'
        · rw [h']; exact haccle x rfl
        · exact hrestle d' h'
    | some b0 =>
      replace h : pickLatestGo
          (if b0.uploaded_at < x.uploaded_at then some x else some b0) rest = some d := h
      by_cases hcmp : b0.uploaded_at < x.uploaded_at
      · rw [if_pos hcmp] at h
        obtain ⟨hmem, haccle, hrestle⟩ := ih h
        refine ⟨?_, fun b hb => ?_, fun d' hd' => ?_⟩
        · rcases hmem with h' | h'
          · exact Or.inr (List.mem_cons.mpr (Or.inl (Option.some.inj h').symm))
          · exact Or.inr (List.mem_cons_of_mem x h')
        · rw [← Option.some.inj hb]
          exact le_of_lt (lt_of_lt_of_le hcmp (haccle x rfl))
        · rcases List.mem_cons.mp hd' with h' | h'
          · rw [h']; exact haccle x rfl
          · exact hrestle d' h'
      · rw [if_neg hcmp] at h
        obtain ⟨hmem, haccle, hrestle⟩ := ih h
        have hxb : x.uploaded_at ≤ b0.uploaded_at := Nat.le_of_not_lt hcmp
        refine ⟨?_, fun b hb => ?_, fun d' hd' => ?_⟩
        · rcases hmem with h' | h'
          · exact Or.inl h'
          · exact Or.inr (List.mem_cons_of_mem x h')
        · rw [← Option.some.inj hb]
          exact haccle b0 rfl
        · rcases List.mem_cons.mp hd' with h' | h'
          · rw [h']; exact le_trans hxb (haccle b0 rfl)
          · exact hrestle d' h'

theorem pickLatestGo_append_strict {d : MediaDoc} :
    ∀ (l : List MediaDoc) (acc : Option MediaDoc),
      (∀ b, acc = some b → b.uploaded_at < d.uploaded_at) →
      (∀ d' ∈ l, d'.uploaded_at < d.uploaded_at) →
      pickLatestGo acc (l ++ [d]) = some d := by
  intro l
  induction l with
  | nil =>
    intro acc hacc _
    cases acc with
    | none => rfl
    | some b =>
      show pickLatestGo
          (if b.uploaded_at < d.uploaded_at then some d else some b) [] = some d
      rw [if_pos (hacc b rfl)]
      rfl
  | cons x rest ih =>
    intro acc hacc hl
    have hx : x.uploaded_at < d.uploaded_at := hl x (List.mem_cons_self x rest)
    have hrest : ∀ d' ∈ rest, d'.uploaded_at < d.uploaded_at :=
      fun d' hd' => hl d' (List.mem_cons_of_mem x hd')
    cases acc with
    | none =>
      show pickLatestGo (some x) (rest ++ [d]) = some d
      exact ih (some x) (fun b hb => by rw [← Option.some.inj hb]; exact hx) hrest
    | some b0 =>
      show pickLatestGo
          (if b0.uploaded_at < x.uploaded_at then some x else some b0) (rest ++ [d]) = some d
      by_cases hcmp : b0.uploaded_at < x.uploaded_at
      · rw [if_pos hcmp]
        exact ih (some x) (fun b hb => by rw [← Option.some.inj hb]; exact hx) hrest
      · rw [if_neg hcmp]
        exact ih (some b0) (fun b hb => by rw [← Option.some.inj hb]; exact hacc b0 rfl) hrest

/-- C7: `latest(owner_id, category)` returns the stored attachment with the
greatest upload timestamp among those matching the owner and category; after
two sequential uploads for the same pair it returns the payload of the
second upload, never the first; with no matching attachment it is HTTP 404. -/
theorem latest_media_spec (c : List MediaDoc) (lf lid mt : String) :
    (∀ r, stream_latest_media c lf lid mt = .ok r →
      ∃ d ∈ c, mediaMatches lf lid mt d = true ∧
        r = ⟨d.content, d.content_type, d.filename⟩ ∧
        ∀ d' ∈ c, mediaMatches lf lid mt d' = true →
          d'.uploaded_at ≤ d.uploaded_at) ∧
    ((∀ d ∈ c, mediaMatches lf lid mt d = false) →
      stream_latest_media c lf lid mt = .error noMediaErr) ∧
    (∀ fn1 ct1 b1 t1 id1 fn2 ct2 b2 t2 id2, t1 < t2 →
      (∀ d ∈ c, mediaMatches lf lid mt d = true → d.uploaded_at < t2) →
      stream_latest_media
        (upload_media (upload_media c lf lid mt fn1 ct1 b1 t1 id1).1
          lf lid mt fn2 ct2 b2 t2 id2).1 lf lid mt
        = .ok ⟨b2, ct2, fn2⟩) := by
  refine ⟨?_, ?_, ?_⟩
  · intro r hr
    cases hfind : find_one_sorted c lf lid mt with
    | none => simp [stream_latest_media, hfind] at hr
    | some d =>
      simp only [stream_latest_media, hfind] at hr
      replace hfind : pickLatestGo none (c.filter (mediaMatches lf lid mt)) = some d := hfind
      obtain ⟨hmem, _, hle⟩ := pickLatestGo_some hfind
      rcases hmem with h' | h'
      · exact Option.noConfusion h'
      · obtain ⟨hdc, hdm⟩ := List.mem_filter.mp h'
        exact ⟨d, hdc, hdm, (Except.ok.inj hr).symm ▸ rfl,
               fun d' hd' hm' => hle d' (List.mem_filter.mpr ⟨hd', hm'⟩)⟩
  · intro hnone
    have hfilter : c.filter (mediaMatches lf lid mt) = [] :=
      List.filter_eq_nil_iff.mpr fun d hd => by simp [hnone d hd]
    simp [stream_latest_media, find_one_sorted, hfilter, pickLatestGo]
  · intro fn1 ct1 b1 t1 id1 fn2 ct2 b2 t2 id2 ht hbound
    have key : pickLatestGo none
        ((c.filter (mediaMatches lf lid mt)
            ++ [⟨id1, lf, lid, mt, fn1, ct1, b1, t1⟩])
          ++ [⟨id2, lf, lid, mt, fn2, ct2, b2, t2⟩])
        = some ⟨id2, lf, lid, mt, fn2, ct2, b2, t2⟩ := by
      apply pickLatestGo_append_strict
      · intro b hb
        exact Option.noConfusion hb
      · intro d' hd'
        rcases List.mem_append.mp hd' with h' | h'
        · obtain ⟨hdc, hdm⟩ := List.mem_filter.mp h'
          exact hbound d' hdc hdm
        · rw [List.mem_singleton.mp h']
          exact ht
    rw [List.append_assoc, List.singleton_append] at key
    simp [stream_latest_media, find_one_sorted, upload_media, List.filter_append,
      mediaMatches, key]

/-- Closed witness for the C7 theorem: the second of two sequential uploads
is streamed back, and an empty media collection yields 404. -/
theorem latest_media_spec_witness :
    stream_latest_media
      (upload_media
        (upload_media [] "event_id" "abc" "event_poster" "a.png" "image/png" [1] 0 wOId).1
        "event_id" "abc" "event_poster" "b.png" "image/png" [2] 1 wOId).1
      "event_id" "abc" "event_poster" = .ok ⟨[2], "image/png", "b.png"⟩ ∧
    stream_latest_media [] "event_id" "abc" "event_poster" = .error noMediaErr :=
  ⟨(latest_media_spec [] "event_id" "abc" "event_poster").2.2
     "a.png" "image/png" [1] 0 wOId "b.png" "image/png" [2] 1 wOId (by decide) (by simp),
   (latest_media_spec [] "event_id" "abc" "event_poster").2.1 (by simp)⟩

/-- C10: media endpoints never run the owner id through `oid`: upload stores
any owner id string verbatim (malformed ones included) and succeeds whenever
the declared content type has the required prefix; latest retrieval only ever
fails with HTTP 404 (in particular with a malformed or unknown owner id),
while the entity endpoints answer HTTP 400 to the same malformed id. -/
theorem media_bypass_id_codec (c : List MediaDoc) (event_id ct fn : String)
    (content : List Nat) (now : Nat) (fresh : OId)
    (hct : "image/".toList.isPrefixOf ct.toList = true) :
    upload_event_poster c event_id (some ct) fn content now fresh
      = .ok (c ++ [⟨fresh, "event_id", event_id, "event_poster", fn, ct, content, now⟩],
             fresh.hex) ∧
    (∀ e, get_event_poster c event_id = .error e → e = noMediaErr) ∧
    ((∀ d ∈ c, mediaMatches "event_id" event_id "event_poster" d = false) →
      get_event_poster c event_id = .error noMediaErr) ∧
    (validObjectIdString event_id = false →
      ∀ ec : List (MDoc Event), get_event ec event_id = .error invalidIdErr) := by
  refine ⟨?_, ?_, ?_, ?_⟩
  · show (if (!"image/".toList.isPrefixOf ct.toList) = true
        then (Except.error ⟨400, "Poster must be an image"⟩ :
          Except HErr (List MediaDoc × String))
        else .ok (upload_media c "event_id" event_id "event_poster" fn ct content now fresh))
      = .ok (c ++ [MediaDoc.mk fresh "event_id" event_id "event_poster" fn ct content now],
             fresh.hex)
    rw [hct]
    rfl
  · intro e he
    cases hfind : find_one_sorted c "event_id" event_id "event_poster" with
    | none =>
      simp only [get_event_poster, stream_latest_media, hfind] at he
      exact (Except.error.inj he).symm
    | some d =>
      simp [get_event_poster, stream_latest_media, hfind] at he
  · intro hnone
    have hfilter : c.filter (mediaMatches "event_id" event_id "event_poster") = [] :=
      List.filter_eq_nil_iff.mpr fun d hd => by simp [hnone d hd]
    simp [get_event_poster, stream_latest_media, find_one_sorted, hfilter, pickLatestGo]
  · intro hbad ec
    simp [get_event, getDoc, get_or_404, oid, hbad, Except.map]

/-- Closed witness for the C10 theorem at the malformed owner id
`"not-a-valid-id"`: upload succeeds and stores the id verbatim, latest
retrieval is a 404, and the entity endpoint's answer to the same id is a
400. -/
theorem media_bypass_id_codec_witness :
    upload_event_poster [] "not-a-valid-id" (some "image/png") "p.png" [1, 2] 0 wOId
      = .ok ([⟨wOId, "event_id", "not-a-valid-id", "event_poster",
              "p.png", "image/png", [1, 2], 0⟩], wId) ∧
    get_event_poster [] "not-a-valid-id" = .error noMediaErr ∧
    get_event ([] : List (MDoc Event)) "not-a-valid-id" = .error invalidIdErr :=
  ⟨(media_bypass_id_codec [] "not-a-valid-id" "image/png" "p.png" [1, 2] 0 wOId
      (by decide)).1,
   (media_bypass_id_codec [] "not-a-valid-id" "image/png" "p.png" [1, 2] 0 wOId
      (by decide)).2.2.1 (by simp),
   (media_bypass_id_codec [] "not-a-valid-id" "image/png" "p.png" [1, 2] 0 wOId
      (by decide)).2.2.2 (by decide) []⟩
